import Mathlib

/-!
Shallow embedding of `src/main.py` (oil-analysis): a pandas script that loads a
spreadsheet of trade values, filters to Europe, computes sample statistics, and
runs two threshold filters over the resulting table.

Modelling choices:
* A DataFrame is a `List Row`; a row carries the text columns, a rational
  `Trade Value`, and an optional derived `Trade Value (Billions)` column
  (`none` until `create_visualizations` adds it in place).
* pandas floating point values are idealised as exact numbers: `ℚ` for data
  values and `ℝ` where a square root appears (the sample standard deviation).
* pandas NaN is modelled by `Option`: aggregate results are `Option`-valued
  (`none` = NaN), arithmetic on them propagates `none`, and comparisons
  against `none` are false, exactly as float comparisons against NaN.
* `sort_values` is modelled by `List.insertionSort`, i.e. by a correct
  comparison sort; note the source uses the pandas default `kind='quicksort'`,
  which orders equal keys in an unspecified way, so tie order facts about the
  model are not facts about the source.
-/

namespace OilAnalysis

/-- A raw spreadsheet row as produced by `pd.read_excel`.  The `Trade Value`
cell is recorded by the outcome of numeric coercion
(`pd.to_numeric(..., errors='coerce')`, `src/main.py` line 26): `some v` when
the cell holds the number `v`, `none` when it is missing or non-numeric
(coerced to NaN). -/
structure RawRow where
  country : String
  iso3 : String
  continent : String
  tradeValue : Option ℚ
deriving DecidableEq, Repr

/-- A row of a table past the Loader stage: `Trade Value` is numeric and
non-missing.  `tradeValueBillions` is the derived `Trade Value (Billions)`
column, absent (`none`) until `create_visualizations` assigns it. -/
structure Row where
  country : String
  iso3 : String
  continent : String
  tradeValue : ℚ
  tradeValueBillions : Option ℚ
deriving DecidableEq, Repr

/-- The ways reading the spreadsheet can fail, mirroring the two `except`
branches of `load_and_filter_data` (`src/main.py` lines 31-36). -/
inductive ReadError where
  | fileNotFound (path : String)
  | otherError (message : String)
deriving DecidableEq, Repr

/-- Float subtraction on `Option ℚ` values: NaN propagates. -/
def qsub? : Option ℚ → Option ℚ → Option ℚ
  | some a, some b => some (a - b)
  | _, _ => none

/-- Float absolute value on `Option ℚ`: NaN propagates. -/
def qabs? : Option ℚ → Option ℚ
  | some a => some |a|
  | none => none

/-- Float comparison `a >= b` on `Option ℚ`: any comparison involving NaN is
false. -/
def qgeb : Option ℚ → Option ℚ → Bool
  | some a, some b => decide (b ≤ a)
  | _, _ => false

/-- Float subtraction on `Option ℝ` values: NaN propagates. -/
def rsub? : Option ℝ → Option ℝ → Option ℝ
  | some a, some b => some (a - b)
  | _, _ => none

/-- Float addition on `Option ℝ` values: NaN propagates. -/
def radd? : Option ℝ → Option ℝ → Option ℝ
  | some a, some b => some (a + b)
  | _, _ => none

/-- Float comparison `a >= b` on `Option ℝ`: any comparison involving NaN is
false. -/
def rge? : Option ℝ → Option ℝ → Prop
  | some a, some b => b ≤ a
  | _, _ => False

/-- Float comparison `a <= b` on `Option ℝ`: any comparison involving NaN is
false. -/
def rle? : Option ℝ → Option ℝ → Prop
  | some a, some b => a ≤ b
  | _, _ => False

/-- Sort-key order used by `sort_values` on an `Option ℚ` column: missing
values (NaN) are placed last (`na_position='last'`). -/
def qkeyLe : Option ℚ → Option ℚ → Prop
  | some a, some b => a ≤ b
  | some _, none => True
  | none, some _ => False
  | none, none => True

instance : DecidableRel qkeyLe
  | some a, some b => inferInstanceAs (Decidable (a ≤ b))
  | some _, none => inferInstanceAs (Decidable True)
  | none, some _ => inferInstanceAs (Decidable False)
  | none, none => inferInstanceAs (Decidable True)

/-- Embedding of `pandas.Series.mean` over the values of a column: NaN on an
empty series, otherwise the sum divided by the length. -/
def seriesMean (l : List ℚ) : Option ℚ :=
  if l.length = 0 then none else some (l.sum / l.length)

/-- Embedding of `pandas.Series.std` (default `ddof=1`): NaN when fewer than
two values are present (for a single value the variance is `0/0`), otherwise
the square root of the sum of squared deviations from the mean divided by
`n - 1`. -/
noncomputable def seriesStd (l : List ℚ) : Option ℝ :=
  if l.length < 2 then none
  else
    some (Real.sqrt
      ((l.map (fun x => ((x : ℝ) - ((l.sum / (l.length : ℚ) : ℚ) : ℝ)) ^ 2)).sum /
        ((l.length : ℝ) - 1)))

/-- Spec formula (spec section 4.2): the arithmetic mean of a column. -/
def specArithMean (l : List ℚ) : ℚ := l.sum / l.length

/-- Spec formula (spec section 4.2): the sample standard deviation, i.e. the
sum of squared deviations from the mean divided by `N - 1`, then the square
root. -/
noncomputable def specSampleStd (l : List ℚ) : ℝ :=
  Real.sqrt
    ((l.map (fun x => ((x : ℝ) - ((specArithMean l : ℚ) : ℝ)) ^ 2)).sum /
      ((l.length : ℝ) - 1))

/-- The Statistics Summary returned by `calculate_statistics`
(`src/main.py` lines 48-54): each aggregate is `Option`-valued because pandas
aggregates of degenerate series are NaN. -/
structure Stats where
  mean : Option ℚ
  std : Option ℝ
  min : Option ℚ
  max : Option ℚ
  range : Option ℚ

/-- Embedding of `calculate_statistics` (`src/main.py` lines 38-55). -/
noncomputable def calculate_statistics (df : List Row) : Stats :=
  let v := df.map (fun r => r.tradeValue)
  { mean := seriesMean v
    std := seriesStd v
    min := v.min?
    max := v.max?
    range := qsub? v.max? v.min? }

/-- Descending order on `Trade Value`, the comparison used by
`sort_values('Trade Value', ascending=False)` (`src/main.py` line 71). -/
def descTradeValue (a b : Row) : Prop := b.tradeValue ≤ a.tradeValue

instance : DecidableRel descTradeValue :=
  fun a b => inferInstanceAs (Decidable (b.tradeValue ≤ a.tradeValue))

instance : IsTotal Row descTradeValue :=
  ⟨fun a b => le_total b.tradeValue a.tradeValue⟩

instance : IsTrans Row descTradeValue :=
  ⟨fun _ _ _ hab hbc => le_trans hbc hab⟩

/-- Embedding of `find_countries_in_range` (`src/main.py` lines 57-71):
take the column maximum, derive `threshold = max * (1 - percentage/100)`,
keep the rows whose value is `>= threshold`, and sort them descending by
`Trade Value`. -/
def find_countries_in_range (df : List Row) (percentage : ℚ) : List Row :=
  let max_value := (df.map (fun r => r.tradeValue)).max?
  let threshold := max_value.map (fun m => m * (1 - percentage / 100))
  List.insertionSort descTradeValue
    (df.filter (fun r => qgeb (some r.tradeValue) threshold))

/-- A row of the table returned by `identify_stable_exporters`: the original
row plus the derived `Deviation_From_Mean` and `Within_Stable_Range` columns. -/
structure StableRow where
  base : Row
  deviationFromMean : Option ℚ
  withinStableRange : Prop

/-- Ascending order on `Deviation_From_Mean`, the comparison used by
`sort_values('Deviation_From_Mean')` (`src/main.py` line 96). -/
def devLe (a b : StableRow) : Prop :=
  qkeyLe a.deviationFromMean b.deviationFromMean

instance : DecidableRel devLe :=
  fun a b => inferInstanceAs (Decidable (qkeyLe a.deviationFromMean b.deviationFromMean))

instance : IsTotal StableRow devLe where
  total a b := by
    obtain ⟨_, da, _⟩ := a
    obtain ⟨_, db, _⟩ := b
    rcases da with _ | x <;> rcases db with _ | y
    · exact Or.inl trivial
    · exact Or.inr trivial
    · exact Or.inl trivial
    · exact (le_total x y).imp id id

instance : IsTrans StableRow devLe where
  trans a b c hab hbc := by
    obtain ⟨_, da, _⟩ := a
    obtain ⟨_, db, _⟩ := b
    obtain ⟨_, dc, _⟩ := c
    rcases da with _ | x <;> rcases db with _ | y <;> rcases dc with _ | z <;>
      first
        | trivial
        | exact False.elim hbc
        | exact False.elim hab
        | exact le_trans hab hbc

/-- The per-row annotation performed by `identify_stable_exporters`
(`src/main.py` lines 91-93), written out with the column aggregates it
reads: `Deviation_From_Mean = abs(value - mean)` and
`Within_Stable_Range = (value >= mean - std) & (value <= mean + std)`. -/
noncomputable def annotateStable (df : List Row) (r : Row) : StableRow :=
  { base := r
    deviationFromMean :=
      qabs? (qsub? (some r.tradeValue) (seriesMean (df.map (fun rr => rr.tradeValue))))
    withinStableRange :=
      rge? (some (r.tradeValue : ℝ))
        (rsub? ((seriesMean (df.map (fun rr => rr.tradeValue))).map (fun q => (q : ℝ)))
          (seriesStd (df.map (fun rr => rr.tradeValue)))) ∧
      rle? (some (r.tradeValue : ℝ))
        (radd? ((seriesMean (df.map (fun rr => rr.tradeValue))).map (fun q => (q : ℝ)))
          (seriesStd (df.map (fun rr => rr.tradeValue)))) }

/-- Embedding of `identify_stable_exporters` (`src/main.py` lines 73-96):
compute the column mean and sample standard deviation, annotate every row
with `Deviation_From_Mean = abs(value - mean)` and
`Within_Stable_Range = (value >= mean - std) & (value <= mean + std)`, and
return all rows sorted ascending by `Deviation_From_Mean`.  The column
assignments are made on `df_stable = df.copy()`, so the input list is not
part of the result state. -/
noncomputable def identify_stable_exporters (df : List Row) : List StableRow :=
  let values := df.map (fun r => r.tradeValue)
  let mean_value := seriesMean values
  let std_value := seriesStd values
  let lower_bound := rsub? (mean_value.map (fun q => (q : ℝ))) std_value
  let upper_bound := radd? (mean_value.map (fun q => (q : ℝ))) std_value
  let df_stable := df.map (fun r =>
    { base := r
      deviationFromMean := qabs? (qsub? (some r.tradeValue) mean_value)
      withinStableRange :=
        rge? (some (r.tradeValue : ℝ)) lower_bound ∧
        rle? (some (r.tradeValue : ℝ)) upper_bound })
  List.insertionSort devLe df_stable

/-- The pure core of `load_and_filter_data` on a successfully read sheet
(`src/main.py` lines 23-29): keep the rows whose `Continent` is `"Europe"`,
coerce `Trade Value` to numeric, and drop the rows whose coercion failed. -/
def processLoadedFrame (rows : List RawRow) : List Row :=
  (rows.filter (fun r => r.continent == "Europe")).filterMap
    (fun r => r.tradeValue.map (fun v =>
      { country := r.country
        iso3 := r.iso3
        continent := r.continent
        tradeValue := v
        tradeValueBillions := none }))

/-- Embedding of `load_and_filter_data` (`src/main.py` lines 7-36) on the
outcome of the file read: on success the filtered table, on any read error
`None` together with the printed error message (second component: the console
messages emitted by the call). -/
def load_and_filter_data (input : Except ReadError (List RawRow)) :
    Option (List Row) × List String :=
  match input with
  | Except.ok rows => (some (processLoadedFrame rows), [])
  | Except.error (ReadError.fileNotFound p) =>
      (none, ["Error: File " ++ p ++ " not found."])
  | Except.error (ReadError.otherError m) =>
      (none, ["Error loading data: " ++ m])

/-- State of the caller's frame after `create_visualizations` returns
(`src/main.py` line 113): the function assigns the `Trade Value (Billions)`
column on the parameter dataframe itself, without copying, so the caller's
frame gains that column; chart rendering performs no further frame mutation. -/
def create_visualizations_frame (df : List Row) : List Row :=
  df.map (fun r => { r with tradeValueBillions := some (r.tradeValue / 1000000000) })

/-- State of the caller's frame after `identify_stable_exporters` returns:
every column assignment in its body targets `df_stable = df.copy()`
(`src/main.py` line 90), so the caller's frame is left as it was. -/
def identify_stable_exporters_frame (df : List Row) : List Row := df

/-- Everything `main` derives from the loaded table (`src/main.py`
lines 160-203): the statistics, the two filter outputs, and the state of the
frame after `create_visualizations` ran on it. -/
structure RunOutput where
  stats : Stats
  topExporters : List Row
  stableExporters : List StableRow
  frameAfterVisualizations : List Row

/-- Embedding of `main` (`src/main.py` lines 160-203): when the load fails
(`df is None`) it returns early and produces nothing; otherwise it computes
statistics, the two filters (with `percentage=10`), and renders the charts. -/
noncomputable def main (input : Except ReadError (List RawRow)) : Option RunOutput :=
  match (load_and_filter_data input).1 with
  | none => none
  | some df =>
      some { stats := calculate_statistics df
             topExporters := find_countries_in_range df 10
             stableExporters := identify_stable_exporters df
             frameAfterVisualizations := create_visualizations_frame df }

/-- Concrete row used by witnesses: Trade Value 100. -/
def wRowA : Row := ⟨"Alpha", "AAA", "Europe", 100, none⟩

/-- Concrete row used by witnesses: Trade Value 95. -/
def wRowB : Row := ⟨"Beta", "BBB", "Europe", 95, none⟩

/-- Concrete row used by witnesses: Trade Value 50. -/
def wRowC : Row := ⟨"Gamma", "CCC", "Europe", 50, none⟩

/-- Concrete three-row table used by witnesses (the spec section 8 example
with values 100, 95, 50). -/
def wDf : List Row := [wRowA, wRowB, wRowC]

/-- Concrete row used by the frame-mutation counterexample. -/
def vizRow : Row := ⟨"Norway", "NOR", "Europe", 100, none⟩

instance : Std.Antisymm (fun a b : ℚ => a ≤ b) :=
  ⟨fun h1 h2 => le_antisymm h1 h2⟩

/-- A nonempty rational column has a maximum: `max?` returns a member that
bounds every element from above. -/
theorem max?_spec {l : List ℚ} (h : l ≠ []) :
    ∃ M, l.max? = some M ∧ M ∈ l ∧ ∀ x ∈ l, x ≤ M := by
  cases l with
  | nil => exact absurd rfl h
  | cons x xs =>
    refine ⟨xs.foldl max x, rfl, ?_⟩
    exact (List.max?_eq_some_iff (fun a => le_refl a) (fun a b => max_choice a b)
      (fun _ _ _ => max_le_iff)).mp rfl

/-- A nonempty rational column has a minimum: `min?` returns a member that
bounds every element from below. -/
theorem min?_spec {l : List ℚ} (h : l ≠ []) :
    ∃ m, l.min? = some m ∧ m ∈ l ∧ ∀ x ∈ l, m ≤ x := by
  cases l with
  | nil => exact absurd rfl h
  | cons x xs =>
    refine ⟨xs.foldl min x, rfl, ?_⟩
    exact (List.min?_eq_some_iff (fun a => le_refl a) (fun a b => min_choice a b)
      (fun _ _ _ => le_min_iff)).mp rfl

/-- On a nonempty column, the embedded `pandas` mean is the arithmetic mean. -/
theorem seriesMean_eq {l : List ℚ} (h : l ≠ []) :
    seriesMean l = some (specArithMean l) := by
  unfold seriesMean specArithMean
  rw [if_neg (fun h0 => h (List.length_eq_zero.mp h0))]

/-- On a column with at least two values, the embedded `pandas` standard
deviation is the sample standard deviation of the spec. -/
theorem seriesStd_eq {l : List ℚ} (h : 2 ≤ l.length) :
    seriesStd l = some (specSampleStd l) := by
  unfold seriesStd specSampleStd specArithMean
  rw [if_neg (by omega)]

/-- Unfolding of `identify_stable_exporters` with its `let` bindings
substituted: annotate every row, then sort by `Deviation_From_Mean`. -/
theorem identify_stable_exporters_def (df : List Row) :
    identify_stable_exporters df =
      List.insertionSort devLe (df.map (annotateStable df)) := rfl

/-- Computation rule: float subtraction of two present real values. -/
theorem rsub?_some (a b : ℝ) : rsub? (some a) (some b) = some (a - b) := rfl

/-- Computation rule: float addition of two present real values. -/
theorem radd?_some (a b : ℝ) : radd? (some a) (some b) = some (a + b) := rfl

/-- Computation rule: float `>=` on two present real values. -/
theorem rge?_some (a b : ℝ) : rge? (some a) (some b) = (b ≤ a) := rfl

/-- Computation rule: float `<=` on two present real values. -/
theorem rle?_some (a b : ℝ) : rle? (some a) (some b) = (a ≤ b) := rfl

/-- Computation rule: float subtraction of two present rational values. -/
theorem qsub?_some (a b : ℚ) : qsub? (some a) (some b) = some (a - b) := rfl

/-- Computation rule: float absolute value of a present rational value. -/
theorem qabs?_some (a : ℚ) : qabs? (some a) = some |a| := rfl

/-- C7: if the input file does not exist, or any other read error occurs,
`load_and_filter_data` returns an absent result rather than raising, emits a
message, and `main` treats the absent result as "stop processing", producing
no statistics, filter outputs, or charts. -/
theorem load_failure_stops_processing (e : ReadError) :
    (load_and_filter_data (Except.error e)).1 = none ∧
    (load_and_filter_data (Except.error e)).2 ≠ [] ∧
    main (Except.error e) = none := by
  cases e <;> simp [load_and_filter_data, main]

/-- C9: for every non-empty table, the `range` field of the Statistics
Summary equals its `max` field minus its `min` field. -/
theorem calculate_statistics_range_eq (df : List Row) (h : df ≠ []) :
    ∃ mx mn : ℚ, (calculate_statistics df).max = some mx ∧
      (calculate_statistics df).min = some mn ∧
      (calculate_statistics df).range = some (mx - mn) := by
  have hv : df.map (fun r => r.tradeValue) ≠ [] := by simpa using h
  obtain ⟨M, hM, -, -⟩ := max?_spec hv
  obtain ⟨m, hm, -, -⟩ := min?_spec hv
  exact ⟨M, m, by simp [calculate_statistics, hM], by simp [calculate_statistics, hm],
    by simp [calculate_statistics, qsub?, hM, hm]⟩

/-- Witness for C9 at the concrete three-row table. -/
theorem calculate_statistics_range_eq_witness :
    wDf ≠ [] ∧
    ∃ mx mn : ℚ, (calculate_statistics wDf).max = some mx ∧
      (calculate_statistics wDf).min = some mn ∧
      (calculate_statistics wDf).range = some (mx - mn) :=
  ⟨by simp [wDf], calculate_statistics_range_eq wDf (by simp [wDf])⟩

/-- C1: on a table with a non-empty Trade Value column, the Range Filter
returns exactly the rows whose Trade Value is at least
`max * (1 - percentage/100)` — no qualifying row omitted, no other row
included — sorted in descending order of Trade Value. -/
theorem find_countries_in_range_spec (df : List Row) (p : ℚ) (h : df ≠ []) :
    ∃ M : ℚ, M ∈ df.map (fun r => r.tradeValue) ∧
      (∀ x ∈ df.map (fun r => r.tradeValue), x ≤ M) ∧
      (find_countries_in_range df p).Perm
        (df.filter (fun r => decide (M * (1 - p / 100) ≤ r.tradeValue))) ∧
      List.Sorted (fun a b : Row => b.tradeValue ≤ a.tradeValue)
        (find_countries_in_range df p) := by
  have hv : df.map (fun r => r.tradeValue) ≠ [] := by simpa using h
  obtain ⟨M, hM, hmem, hub⟩ := max?_spec hv
  refine ⟨M, hmem, hub, ?_, ?_⟩
  · have hfind : find_countries_in_range df p =
        List.insertionSort descTradeValue
          (df.filter (fun r => qgeb (some r.tradeValue)
            (((df.map (fun rr => rr.tradeValue)).max?).map (fun m => m * (1 - p / 100))))) := rfl
    rw [hfind, hM]
    have hfeq : df.filter (fun r => qgeb (some r.tradeValue)
          ((some M).map (fun m => m * (1 - p / 100)))) =
        df.filter (fun r => decide (M * (1 - p / 100) ≤ r.tradeValue)) := by
      apply List.filter_congr
      intro r _
      simp [qgeb]
    rw [hfeq]
    exact List.perm_insertionSort _ _
  · exact List.sorted_insertionSort descTradeValue _

/-- Witness for C1 at the concrete three-row table with percentage 10. -/
theorem find_countries_in_range_spec_witness :
    wDf ≠ [] ∧
    ∃ M : ℚ, M ∈ wDf.map (fun r => r.tradeValue) ∧
      (∀ x ∈ wDf.map (fun r => r.tradeValue), x ≤ M) ∧
      (find_countries_in_range wDf 10).Perm
        (wDf.filter (fun r => decide (M * (1 - 10 / 100) ≤ r.tradeValue))) ∧
      List.Sorted (fun a b : Row => b.tradeValue ≤ a.tradeValue)
        (find_countries_in_range wDf 10) :=
  ⟨by simp [wDf], find_countries_in_range_spec wDf 10 (by simp [wDf])⟩

/-- C8: for every non-empty table, the Statistics Summary has `mean` equal
to the arithmetic mean of the Trade Value column, `min` and `max` equal to
the extrema of the column, and (whenever the sample standard deviation is
defined, i.e. at least two rows) `std` equal to the sample standard
deviation: the sum of squared deviations from the mean divided by `N - 1`,
then the square root. -/
theorem calculate_statistics_spec (df : List Row) (h : df ≠ []) :
    (calculate_statistics df).mean = some (specArithMean (df.map (fun r => r.tradeValue))) ∧
    (∃ m, (calculate_statistics df).min = some m ∧ m ∈ df.map (fun r => r.tradeValue) ∧
      ∀ x ∈ df.map (fun r => r.tradeValue), m ≤ x) ∧
    (∃ M, (calculate_statistics df).max = some M ∧ M ∈ df.map (fun r => r.tradeValue) ∧
      ∀ x ∈ df.map (fun r => r.tradeValue), x ≤ M) ∧
    (2 ≤ df.length →
      (calculate_statistics df).std = some (specSampleStd (df.map (fun r => r.tradeValue)))) := by
  have hv : df.map (fun r => r.tradeValue) ≠ [] := by simpa using h
  obtain ⟨M, hM, hMmem, hMub⟩ := max?_spec hv
  obtain ⟨m, hm, hmmem, hmlb⟩ := min?_spec hv
  refine ⟨?_, ⟨m, ?_, hmmem, hmlb⟩, ⟨M, ?_, hMmem, hMub⟩, ?_⟩
  · simp [calculate_statistics, seriesMean_eq hv]
  · simp [calculate_statistics, hm]
  · simp [calculate_statistics, hM]
  · intro h2
    have h2v : 2 ≤ (df.map (fun r => r.tradeValue)).length := by simpa using h2
    simp [calculate_statistics, seriesStd_eq h2v]

/-- Witness for C8 at the concrete three-row table. -/
theorem calculate_statistics_spec_witness :
    wDf ≠ [] ∧
    ((calculate_statistics wDf).mean = some (specArithMean (wDf.map (fun r => r.tradeValue))) ∧
    (∃ m, (calculate_statistics wDf).min = some m ∧ m ∈ wDf.map (fun r => r.tradeValue) ∧
      ∀ x ∈ wDf.map (fun r => r.tradeValue), m ≤ x) ∧
    (∃ M, (calculate_statistics wDf).max = some M ∧ M ∈ wDf.map (fun r => r.tradeValue) ∧
      ∀ x ∈ wDf.map (fun r => r.tradeValue), x ≤ M) ∧
    (2 ≤ wDf.length →
      (calculate_statistics wDf).std = some (specSampleStd (wDf.map (fun r => r.tradeValue))))) :=
  ⟨by simp [wDf], calculate_statistics_spec wDf (by simp [wDf])⟩

/-- C2: on a table where the sample standard deviation is defined (at least
two rows), the Stability Filter marks a row `Within_Stable_Range` exactly
when `mean - std <= Trade Value <= mean + std`, with `mean` the arithmetic
mean and `std` the sample standard deviation of the Trade Value column, both
boundary values included. -/
theorem identify_stable_exporters_within_iff (df : List Row) (s : StableRow)
    (h2 : 2 ≤ df.length) (hs : s ∈ identify_stable_exporters df) :
    s.withinStableRange ↔
      ((specArithMean (df.map (fun r => r.tradeValue)) : ℝ) -
          specSampleStd (df.map (fun r => r.tradeValue)) ≤ (s.base.tradeValue : ℝ) ∧
        (s.base.tradeValue : ℝ) ≤
          (specArithMean (df.map (fun r => r.tradeValue)) : ℝ) +
            specSampleStd (df.map (fun r => r.tradeValue))) := by
  have hne : df ≠ [] := by
    intro hh
    rw [hh] at h2
    simp at h2
  have hv : df.map (fun r => r.tradeValue) ≠ [] := by simpa using hne
  have h2v : 2 ≤ (df.map (fun r => r.tradeValue)).length := by simpa using h2
  rw [identify_stable_exporters_def] at hs
  simp only [List.mem_insertionSort, List.mem_map] at hs
  obtain ⟨r, hr, rfl⟩ := hs
  simp only [annotateStable]
  rw [seriesMean_eq hv, seriesStd_eq h2v]
  exact Iff.rfl

/-- Witness for C2: the concrete three-row table has at least two rows, and
its Stability Filter output has a row whose flag matches the spec bounds. -/
theorem identify_stable_exporters_within_iff_witness :
    2 ≤ wDf.length ∧
    ∃ s, s ∈ identify_stable_exporters wDf ∧
      (s.withinStableRange ↔
        ((specArithMean (wDf.map (fun r => r.tradeValue)) : ℝ) -
            specSampleStd (wDf.map (fun r => r.tradeValue)) ≤ (s.base.tradeValue : ℝ) ∧
          (s.base.tradeValue : ℝ) ≤
            (specArithMean (wDf.map (fun r => r.tradeValue)) : ℝ) +
              specSampleStd (wDf.map (fun r => r.tradeValue)))) := by
  have h2 : 2 ≤ wDf.length := by simp [wDf]
  have hlen : (identify_stable_exporters wDf).length = wDf.length := by
    rw [identify_stable_exporters_def, List.length_insertionSort, List.length_map]
  have hne : identify_stable_exporters wDf ≠ [] := by
    intro hnil
    rw [hnil] at hlen
    simp [wDf] at hlen
  exact ⟨h2, (identify_stable_exporters wDf).head hne, List.head_mem hne,
    identify_stable_exporters_within_iff wDf _ h2 (List.head_mem hne)⟩

/-- C3: the Stability Filter retains every input row — the output has the
same length and its underlying rows are a permutation of the input — each
annotated with `Deviation_From_Mean` equal to the absolute difference of its
Trade Value from the table mean, and the output is sorted ascending by
`Deviation_From_Mean`. -/
theorem identify_stable_exporters_retains (df : List Row) (h : df ≠ []) :
    (identify_stable_exporters df).length = df.length ∧
    ((identify_stable_exporters df).map (fun s => s.base)).Perm df ∧
    (∀ s ∈ identify_stable_exporters df,
      s.deviationFromMean =
        some |s.base.tradeValue - specArithMean (df.map (fun r => r.tradeValue))|) ∧
    List.Sorted devLe (identify_stable_exporters df) := by
  have hv : df.map (fun r => r.tradeValue) ≠ [] := by simpa using h
  refine ⟨?_, ?_, ?_, ?_⟩
  · rw [identify_stable_exporters_def, List.length_insertionSort, List.length_map]
  · have hperm : (identify_stable_exporters df).Perm (df.map (annotateStable df)) := by
      rw [identify_stable_exporters_def]
      exact List.perm_insertionSort _ _
    have h1 := hperm.map (fun s => s.base)
    rw [List.map_map] at h1
    have hid : df.map ((fun s : StableRow => s.base) ∘ annotateStable df) = df.map id :=
      List.map_congr_left (fun a _ => rfl)
    rw [hid, List.map_id] at h1
    exact h1
  · intro s hs
    rw [identify_stable_exporters_def] at hs
    simp only [List.mem_insertionSort, List.mem_map] at hs
    obtain ⟨r, hr, rfl⟩ := hs
    simp only [annotateStable]
    rw [seriesMean_eq hv]
    simp only [qsub?_some, qabs?_some]
  · exact List.sorted_insertionSort devLe _

/-- Witness for C3 at the concrete three-row table. -/
theorem identify_stable_exporters_retains_witness :
    wDf ≠ [] ∧
    ((identify_stable_exporters wDf).length = wDf.length ∧
    ((identify_stable_exporters wDf).map (fun s => s.base)).Perm wDf ∧
    (∀ s ∈ identify_stable_exporters wDf,
      s.deviationFromMean =
        some |s.base.tradeValue - specArithMean (wDf.map (fun r => r.tradeValue))|) ∧
    List.Sorted devLe (identify_stable_exporters wDf)) :=
  ⟨by simp [wDf], identify_stable_exporters_retains wDf (by simp [wDf])⟩

/-- C10: on a single-row table the sample standard deviation (divisor `N-1`)
is missing (NaN), the mean equals the row's own Trade Value, and the
Stability Filter still marks the single row `Within_Stable_Range = false`,
because float comparisons against the undefined bounds `mean ± std` fail. -/
theorem single_row_not_stable (r : Row) :
    seriesStd [r.tradeValue] = none ∧
    seriesMean [r.tradeValue] = some r.tradeValue ∧
    (identify_stable_exporters [r]).length = 1 ∧
    ∀ s ∈ identify_stable_exporters [r], s.base = r ∧ ¬ s.withinStableRange := by
  refine ⟨rfl, ?_, ?_, ?_⟩
  · simp [seriesMean]
  · rw [identify_stable_exporters_def, List.length_insertionSort, List.length_map]
    rfl
  · intro s hs
    rw [identify_stable_exporters_def] at hs
    simp only [List.mem_insertionSort, List.mem_map] at hs
    obtain ⟨x, hx, rfl⟩ := hs
    simp only [List.mem_singleton] at hx
    subst hx
    exact ⟨rfl, fun hw => hw.1⟩

/-- C5 counterexample: `create_visualizations` does not leave the caller's
table unchanged — on a one-row table without the billions column, the
caller's table has gained the `Trade Value (Billions)` column after the
call. -/
theorem create_visualizations_frame_counterexample :
    create_visualizations_frame [vizRow] ≠ [vizRow] := by
  intro h
  have h0 := congrArg (fun l : List Row => (l.headD vizRow).tradeValueBillions) h
  simp [create_visualizations_frame, vizRow] at h0

/-- C5 (amended): the Stability Filter operates on its own copy and leaves
the caller's table unchanged, while `create_visualizations` mutates the
caller's table in place by adding the `Trade Value (Billions)` column
(equal to `Trade Value / 1e9`) to every row, leaving the values of all
pre-existing columns unchanged. -/
theorem component_frame_effects (df : List Row) :
    identify_stable_exporters_frame df = df ∧
    (create_visualizations_frame df).map (fun r => { r with tradeValueBillions := none }) =
      df.map (fun r => { r with tradeValueBillions := none }) ∧
    ∀ r ∈ create_visualizations_frame df,
      r.tradeValueBillions = some (r.tradeValue / 1000000000) := by
  refine ⟨rfl, ?_, ?_⟩
  · unfold create_visualizations_frame
    rw [List.map_map]
    exact List.map_congr_left (fun a _ => rfl)
  · intro r hr
    unfold create_visualizations_frame at hr
    simp only [List.mem_map] at hr
    obtain ⟨x, hx, rfl⟩ := hr
    rfl

/-- C6: on a successful load, every row of the Loader's table has Continent
equal to `"Europe"` and a numeric, non-missing Trade Value: the output is
exactly the input rows whose Continent is `"Europe"`, with non-coercible
Trade Values dropped and the remaining values carried over. -/
theorem loader_output_characterization (rows : List RawRow) :
    (∀ r ∈ processLoadedFrame rows, r.continent = "Europe") ∧
    (load_and_filter_data (Except.ok rows)).1 = some (processLoadedFrame rows) ∧
    processLoadedFrame rows = rows.filterMap (fun raw =>
      if raw.continent = "Europe" then
        raw.tradeValue.map (fun v =>
          ({ country := raw.country, iso3 := raw.iso3, continent := raw.continent,
             tradeValue := v, tradeValueBillions := none } : Row))
      else none) := by
  have heq : processLoadedFrame rows = rows.filterMap (fun raw =>
      if raw.continent = "Europe" then
        raw.tradeValue.map (fun v =>
          ({ country := raw.country, iso3 := raw.iso3, continent := raw.continent,
             tradeValue := v, tradeValueBillions := none } : Row))
      else none) := by
    unfold processLoadedFrame
    simp only [List.filterMap_filter]
    have hfun : (fun x : RawRow => if (x.continent == "Europe") = true
          then x.tradeValue.map (fun v =>
            ({ country := x.country, iso3 := x.iso3, continent := x.continent,
               tradeValue := v, tradeValueBillions := none } : Row))
          else none) =
        (fun raw : RawRow => if raw.continent = "Europe"
          then raw.tradeValue.map (fun v =>
            ({ country := raw.country, iso3 := raw.iso3, continent := raw.continent,
               tradeValue := v, tradeValueBillions := none } : Row))
          else none) := by
      funext raw
      by_cases hc : raw.continent = "Europe"
      · simp [hc]
      · simp [hc]
    rw [hfun]
  refine ⟨?_, rfl, heq⟩
  intro r hr
  rw [heq] at hr
  simp only [List.mem_filterMap] at hr
  obtain ⟨raw, hraw, hmap⟩ := hr
  by_cases hc : raw.continent = "Europe"
  · rw [if_pos hc] at hmap
    rcases hv : raw.tradeValue with _ | v
    · rw [hv] at hmap
      exact absurd hmap (by simp)
    · rw [hv] at hmap
      simp only [Option.map_some'] at hmap
      have hR := Option.some.inj hmap
      subst hR
      exact hc
  · rw [if_neg hc] at hmap
    exact absurd hmap (by simp)

end OilAnalysis
